import Mathlib

/-!
Shallow embedding of the folder-management subsystem of the `vibe` repository:
the relational store (`folders`, `app_folders`, `apps` tables), the
`FolderService` operations, the `FolderController` / `FolderDialog` input
validation, and the `useStatusTracker` activity log.  The database is modelled
as lists of rows; SQL reads/writes are translated statement by statement from
`src/worker/database/services/FolderService.ts`.
-/

namespace Vibe

/-- A row of the `folders` table (schema in the migration file). -/
structure Folder where
  id : String
  userId : String
  name : String
  description : Option String
  color : Option String
  icon : Option String
  order : Int
  createdAt : Nat
  updatedAt : Nat
deriving DecidableEq

/-- A row of the `app_folders` association table. -/
structure AppFolder where
  id : String
  appId : String
  folderId : String
  addedAt : Nat
deriving DecidableEq

/-- A row of the `apps` table (only the columns `FolderService` touches). -/
structure App where
  id : String
  userId : String
  title : String
  description : Option String
  framework : Option String
  status : Option String
  visibility : Option String
  createdAt : Nat
  updatedAt : Nat
deriving DecidableEq

/-- The relational state the folder service reads and writes. -/
structure DB where
  folders : List Folder
  apps : List App
  appFolders : List AppFolder
deriving DecidableEq

/-- The enriched record returned by `getUserFolders` / `getFolderById`:
a folder row together with its computed `appCount`. -/
structure FolderWithAppCount where
  id : String
  userId : String
  name : String
  description : Option String
  color : Option String
  icon : Option String
  order : Int
  createdAt : Nat
  updatedAt : Nat
  appCount : Nat
deriving DecidableEq

/-- `count(appFolders.appId)` for one folder under the left join grouped by
folder id: the number of association rows pointing at the folder. -/
def appCountOf (db : DB) (folderId : String) : Nat :=
  (db.appFolders.filter (fun af => af.folderId == folderId)).length

/-- Attach the computed app count to a folder row (the select projection of
`getUserFolders` / `getFolderById`). -/
def enrich (db : DB) (f : Folder) : FolderWithAppCount :=
  { id := f.id, userId := f.userId, name := f.name, description := f.description
    color := f.color, icon := f.icon, order := f.order
    createdAt := f.createdAt, updatedAt := f.updatedAt
    appCount := appCountOf db f.id }

/-- The `ORDER BY folders.order DESC, folders.name ASC` sort key of
`getUserFolders`, as a relation: `a` comes no later than `b`. -/
def folderListLE (a b : FolderWithAppCount) : Prop :=
  b.order < a.order ∨ (a.order = b.order ∧ a.name ≤ b.name)

instance : DecidableRel folderListLE := fun a b => by
  unfold folderListLE; infer_instance

instance : IsTotal FolderWithAppCount folderListLE where
  total a b := by
    unfold folderListLE
    rcases lt_trichotomy a.order b.order with h | h | h
    · exact Or.inr (Or.inl h)
    · rcases le_total a.name b.name with hn | hn
      · exact Or.inl (Or.inr ⟨h, hn⟩)
      · exact Or.inr (Or.inr ⟨h.symm, hn⟩)
    · exact Or.inl (Or.inl h)

instance : IsTrans FolderWithAppCount folderListLE where
  trans a b c hab hbc := by
    unfold folderListLE at *
    rcases hab with h1 | ⟨h1, hn1⟩
    · rcases hbc with h2 | ⟨h2, _⟩
      · exact Or.inl (h2.trans h1)
      · exact Or.inl (h2 ▸ h1)
    · rcases hbc with h2 | ⟨h2, hn2⟩
      · exact Or.inl (h1 ▸ h2)
      · exact Or.inr ⟨h1.trans h2, hn1.trans hn2⟩

/-- `FolderService.getUserFolders`: all folders of the user, enriched with app
counts, ordered by `order` descending then `name` ascending. -/
def getUserFolders (db : DB) (userId : String) : List FolderWithAppCount :=
  List.insertionSort folderListLE
    ((db.folders.filter (fun f => f.userId == userId)).map (enrich db))

/-- `FolderService.getFolderById`: the folder with the given id owned by the
given user, enriched, or `none`. -/
def getFolderById (db : DB) (folderId userId : String) : Option FolderWithAppCount :=
  (db.folders.find? (fun f => f.id == folderId && f.userId == userId)).map (enrich db)

/-- `COALESCE(MAX(...), -1)`: the maximum of a list of values, `-1` when the
set is empty. -/
def maxIntOr (l : List Int) : Int :=
  match l with
  | [] => -1
  | o :: os => os.foldl max o

/-- `COALESCE(MAX(folders.order), -1)` over the user's folders. -/
def maxOrder (db : DB) (userId : String) : Int :=
  maxIntOr ((db.folders.filter (fun f => f.userId == userId)).map (fun f => f.order))

/-- The request body of a create-folder call. -/
structure FolderData where
  name : String
  description : Option String
  color : Option String
  icon : Option String

/-- `FolderService.createFolder`: computes the next order as max + 1, inserts
the row, then re-selects it by id.  `newId` stands for `generateId()` and
`now` for the row timestamps. -/
def createFolder (db : DB) (userId : String) (d : FolderData)
    (newId : String) (now : Nat) : Option Folder × DB :=
  let nextOrder := maxOrder db userId + 1
  let newFolder : Folder :=
    { id := newId, userId := userId, name := d.name, description := d.description
      color := d.color, icon := d.icon, order := nextOrder
      createdAt := now, updatedAt := now }
  let db2 : DB := { db with folders := db.folders ++ [newFolder] }
  (db2.folders.find? (fun f => f.id == newId), db2)

/-- The partial update body of `updateFolder`; `none` models a field omitted
from the request (drizzle's `.set` skips `undefined` columns). -/
structure FolderUpdates where
  name : Option String
  description : Option String
  color : Option String
  icon : Option String
  order : Option Int
deriving DecidableEq

/-- The `.set({...updates, updatedAt: new Date()})` write applied to one row:
provided fields overwrite, omitted fields keep their value, `updatedAt` is
always refreshed. -/
def applySet (f : Folder) (u : FolderUpdates) (now : Nat) : Folder :=
  { f with
    name := u.name.getD f.name
    description := match u.description with | some d => some d | none => f.description
    color := match u.color with | some c => some c | none => f.color
    icon := match u.icon with | some i => some i | none => f.icon
    order := u.order.getD f.order
    updatedAt := now }

/-- `FolderService.updateFolder`: ownership check via `getFolderById`, then an
update of the matching row, then a re-select by id alone. -/
def updateFolder (db : DB) (folderId userId : String) (u : FolderUpdates)
    (now : Nat) : Option Folder × DB :=
  match getFolderById db folderId userId with
  | none => (none, db)
  | some _ =>
    let db2 : DB := { db with
      folders := db.folders.map (fun f =>
        if f.id == folderId && f.userId == userId then applySet f u now else f) }
    (db2.folders.find? (fun f => f.id == folderId), db2)

/-- `FolderService.deleteFolder`: ownership check, then delete all association
rows for the folder, then the folder row itself. -/
def deleteFolder (db : DB) (folderId userId : String) : Bool × DB :=
  match getFolderById db folderId userId with
  | none => (false, db)
  | some _ =>
    (true, { db with
      appFolders := db.appFolders.filter (fun af => !(af.folderId == folderId))
      folders := db.folders.filter (fun f => !(f.id == folderId && f.userId == userId)) })

/-- `FolderService.moveAppToFolder`: verify app ownership; `none` target
unfiles the app; otherwise verify folder ownership, delete every existing
association of the app, insert the new one. -/
def moveAppToFolder (db : DB) (appId : String) (folderId : Option String)
    (userId : String) (newId : String) (now : Nat) : Bool × DB :=
  match db.apps.find? (fun a => a.id == appId) with
  | none => (false, db)
  | some app =>
    if app.userId != userId then (false, db)
    else
      match folderId with
      | none =>
        (true, { db with appFolders := db.appFolders.filter (fun af => !(af.appId == appId)) })
      | some fid =>
        match getFolderById db fid userId with
        | none => (false, db)
        | some _ =>
          let cleared := db.appFolders.filter (fun af => !(af.appId == appId))
          (true, { db with appFolders :=
            cleared ++ [{ id := newId, appId := appId, folderId := fid, addedAt := now }] })

/-- The select projection of `getAppsInFolder`. -/
structure AppListing where
  id : String
  title : String
  description : Option String
  framework : Option String
  status : Option String
  visibility : Option String
  createdAt : Nat
  updatedAt : Nat
deriving DecidableEq

def toListing (a : App) : AppListing :=
  { id := a.id, title := a.title, description := a.description
    framework := a.framework, status := a.status, visibility := a.visibility
    createdAt := a.createdAt, updatedAt := a.updatedAt }

/-- `ORDER BY apps.updatedAt DESC` as a relation on listings. -/
def appRecencyLE (a b : AppListing) : Prop := b.updatedAt ≤ a.updatedAt

instance : DecidableRel appRecencyLE := fun a b => by
  unfold appRecencyLE; infer_instance

instance : IsTotal AppListing appRecencyLE where
  total a b := le_total b.updatedAt a.updatedAt

instance : IsTrans AppListing appRecencyLE where
  trans _ _ _ hab hbc := le_trans hbc hab

/-- `FolderService.getAppsInFolder`: ownership check on the folder, then
`apps` inner-joined with `app_folders` on app id, restricted to the folder and
to apps owned by the caller, most recently updated first. -/
def getAppsInFolder (db : DB) (folderId userId : String) : List AppListing :=
  match getFolderById db folderId userId with
  | none => []
  | some _ =>
    let joined := db.apps.flatMap (fun a =>
      (db.appFolders.filter (fun af =>
        af.appId == a.id && af.folderId == folderId && a.userId == userId)).map
        (fun _ => toListing a))
    List.insertionSort appRecencyLE joined

/-- `FolderService.getAppFolder`: the folder id of the first association row
for the app, or `none`; not ownership-scoped. -/
def getAppFolder (db : DB) (appId : String) : Option String :=
  (db.appFolders.find? (fun af => af.appId == appId)).map (fun af => af.folderId)

/-! ### Controller and dialog validation
From `FolderController.createFolder` / `updateFolder` and
`FolderDialog.handleSave`.  JS `.length` and Lean `String.length` agree on the
ASCII data these checks concern. -/

/-- JS `String.prototype.trim`: strip leading and trailing whitespace.
Defined by structural recursion over the character list so that it can be
evaluated inside proofs. -/
def jsTrim (s : String) : String :=
  ⟨((s.data.dropWhile Char.isWhitespace).reverse.dropWhile Char.isWhitespace).reverse⟩

/-- Outcome of the controller's create-folder name validation: either the
trimmed name that gets persisted, or a 400 error message. -/
inductive NameCheck where
  | ok (trimmedName : String)
  | badRequest (msg : String)
deriving DecidableEq

/-- `FolderController.createFolder` validation: `!body.name ||
body.name.trim().length === 0` rejects a missing, empty or all-whitespace
name; then names longer than 50 characters are rejected; otherwise the
trimmed name is passed to the service. -/
def validateCreateName (name : Option String) : NameCheck :=
  match name with
  | none => .badRequest "Folder name is required"
  | some n =>
    if n == "" || (jsTrim n).length == 0 then .badRequest "Folder name is required"
    else if n.length > 50 then .badRequest "Folder name must be 50 characters or less"
    else .ok (jsTrim n)

/-- `FolderController.updateFolder` validation of an optionally provided name:
`some` an error message when rejected, `none` when the request passes. -/
def validateUpdateName (name : Option String) : Option String :=
  match name with
  | none => none
  | some n =>
    if (jsTrim n).length == 0 then some "Folder name cannot be empty"
    else if n.length > 50 then some "Folder name must be 50 characters or less"
    else none

/-- `FolderDialog.handleSave` client-side validation: `some` an error message
when the save is blocked, `none` when `onSave` is invoked. -/
def dialogValidate (name : String) : Option String :=
  if jsTrim name == "" then some "Folder name is required"
  else if name.length > 50 then some "Folder name must be 50 characters or less"
  else none

/-! ### Status tracker
From `useStatusTracker` (`addActivity` / `trackWebSocketMessage`).  `now`
stands for `Date.now()` and `suffix` for the random id suffix. -/

/-- One entry of the activity log (`StatusActivity`). -/
structure StatusActivity where
  id : String
  timestamp : Nat
  type : String
  message : String
  status : String
deriving DecidableEq

/-- The tracker's state: the bounded activity list and the last-activity
timestamp. -/
structure TrackerState where
  activities : List StatusActivity
  lastMessageTimestamp : Nat
deriving DecidableEq

def MAX_ACTIVITIES : Nat := 50

def initialTracker : TrackerState := { activities := [], lastMessageTimestamp := 0 }

/-- `addActivity`: append the new entry, keep only the last `MAX_ACTIVITIES`
(`updated.slice(-MAX_ACTIVITIES)`), and refresh the timestamp. -/
def addActivity (s : TrackerState) (type message status : String)
    (now : Nat) (suffix : String) : TrackerState :=
  let activity : StatusActivity :=
    { id := toString now ++ "-" ++ suffix, timestamp := now
      type := type, message := message, status := status }
  let updated := s.activities ++ [activity]
  { activities :=
      if updated.length > MAX_ACTIVITIES then updated.drop (updated.length - MAX_ACTIVITIES)
      else updated
    lastMessageTimestamp := now }

/-- The tool payload of a `conversation_response` message. -/
structure ToolInfo where
  name : String
  status : String
deriving DecidableEq

/-- The fields of `WebSocketMessage` the dispatch reads.  Fields that a given
message type does not carry are simply ignored by its branch. -/
structure WebSocketMessage where
  type : String
  message : String
  totalFiles : Nat
  filePath : String
  fileFilePath : String
  error : String
  count : Nat
  tool : Option ToolInfo
deriving DecidableEq

/-- The dispatch table of `trackWebSocketMessage`: for a message it yields the
(type, message, status) triple passed to `addActivity`, or `none` for the
suppressed high-frequency types, an unrecognised over-long type, or a
`conversation_response` without an actionable tool payload. -/
def dispatchMessage (m : WebSocketMessage) : Option (String × String × String) :=
  if m.type == "generation_started" then
    some ("generation_started",
      "Starting code generation (" ++ toString m.totalFiles ++ " files)", "active")
  else if m.type == "phase_generating" then
    some ("phase_generating", m.message, "active")
  else if m.type == "phase_generated" then
    some ("phase_generated", m.message, "completed")
  else if m.type == "phase_implementing" then
    some ("phase_implementing", m.message, "active")
  else if m.type == "phase_implemented" then
    some ("phase_implemented", m.message, "completed")
  else if m.type == "phase_validating" then
    some ("phase_validating", m.message, "active")
  else if m.type == "phase_validated" then
    some ("phase_validated", m.message, "completed")
  else if m.type == "file_generating" then
    some ("file_generating", "Generating: " ++ m.filePath, "active")
  else if m.type == "file_generated" then
    some ("file_generated", "Completed: " ++ m.fileFilePath, "completed")
  else if m.type == "file_regenerating" then
    some ("file_regenerating", "Regenerating: " ++ m.filePath, "active")
  else if m.type == "file_regenerated" then
    some ("file_regenerated", "Regenerated: " ++ m.fileFilePath, "completed")
  else if m.type == "deployment_started" then
    some ("deployment_started", "Deploying to preview sandbox", "active")
  else if m.type == "deployment_completed" then
    some ("deployment_completed", "Preview deployment completed", "completed")
  else if m.type == "deployment_failed" then
    some ("deployment_failed", "Deployment failed: " ++ m.message, "error")
  else if m.type == "code_reviewing" then
    some ("code_reviewing", "Reviewing generated code", "active")
  else if m.type == "code_reviewed" then
    some ("code_reviewed", "Code review completed", "completed")
  else if m.type == "generation_complete" then
    some ("generation_complete", "Code generation completed", "completed")
  else if m.type == "generation_stopped" then
    some ("generation_stopped", "Code generation stopped", "info")
  else if m.type == "generation_resumed" then
    some ("generation_resumed", "Code generation resumed", "active")
  else if m.type == "cloudflare_deployment_started" then
    some ("cloudflare_deployment_started", "Deploying to Cloudflare Workers", "active")
  else if m.type == "cloudflare_deployment_completed" then
    some ("cloudflare_deployment_completed", "Cloudflare deployment completed", "completed")
  else if m.type == "cloudflare_deployment_error" then
    some ("cloudflare_deployment_error", "Deployment error: " ++ m.error, "error")
  else if m.type == "runtime_error_found" then
    some ("runtime_error_found", "Runtime errors detected (" ++ toString m.count ++ ")", "error")
  else if m.type == "deterministic_code_fix_started" then
    some ("deterministic_code_fix_started", "Fixing code issues", "active")
  else if m.type == "deterministic_code_fix_completed" then
    some ("deterministic_code_fix_completed", "Code fixes applied", "completed")
  else if m.type == "conversation_response" then
    match m.tool with
    | some t =>
      if t.status == "start" then some ("tool_start", "Running tool: " ++ t.name, "active")
      else if t.status == "success" then
        some ("tool_success", "Tool completed: " ++ t.name, "completed")
      else if t.status == "error" then
        some ("tool_error", "Tool failed: " ++ t.name, "error")
      else none
    | none => none
  else if m.type == "error" then
    some ("error", m.error, "error")
  else if m.type == "rate_limit_error" then
    some ("rate_limit_error", "Rate limit exceeded", "error")
  else if m.type == "cf_agent_state" || m.type == "file_chunk_generated" then none
  else if m.type.length ≤ 50 then
    some (m.type, "Event: " ++ m.type, "info")
  else none

/-- `trackWebSocketMessage`: refresh the timestamp, then run the branch of the
source switch selected by `dispatchMessage` — every non-suppressed branch is a
single `addActivity` call. -/
def trackWebSocketMessage (s : TrackerState) (m : WebSocketMessage)
    (now : Nat) (suffix : String) : TrackerState :=
  let s := { s with lastMessageTimestamp := now }
  match dispatchMessage m with
  | some (ty, msg, st) => addActivity s ty msg st now suffix
  | none => s

/-- Feed a sequence of (message, time, id-suffix) triples through the tracker. -/
def feedMessages (s : TrackerState) : List (WebSocketMessage × Nat × String) → TrackerState
  | [] => s
  | (m, t, suf) :: rest => feedMessages (trackWebSocketMessage s m t suf) rest

/-- A `phase_generating` message with the given text. -/
def mkPhaseGenerating (text : String) : WebSocketMessage :=
  { type := "phase_generating", message := text, totalFiles := 0, filePath := ""
    fileFilePath := "", error := "", count := 0, tool := none }

/-- The activity entry a `phase_generating` (text, time, id-suffix) triple
produces. -/
def genActivity (p : String × Nat × String) : StatusActivity :=
  { id := toString p.2.1 ++ "-" ++ p.2.2, timestamp := p.2.1
    type := "phase_generating", message := p.1, status := "active" }

/-- The last `n` entries of a list. -/
def lastN {α : Type _} (n : Nat) (l : List α) : List α := l.drop (l.length - n)

/-- Run a sequence of `createFolder` calls for one user, collecting the
returned records. -/
def createRun (db : DB) (userId : String) :
    List (FolderData × String × Nat) → List (Option Folder) × DB
  | [] => ([], db)
  | (d, i, t) :: rest =>
    let r := createFolder db userId d i t
    let rest2 := createRun r.2 userId rest
    (r.1 :: rest2.1, rest2.2)

/-! ### Concrete sample data used by the witness theorems. -/

def sampleFolder (id uid nm : String) (ord : Int) : Folder :=
  { id := id, userId := uid, name := nm, description := none, color := none
    icon := none, order := ord, createdAt := 0, updatedAt := 0 }

def sampleApp (id uid : String) : App :=
  { id := id, userId := uid, title := "app", description := none, framework := none
    status := none, visibility := none, createdAt := 0, updatedAt := 0 }

def sampleAssoc (id appId folderId : String) : AppFolder :=
  { id := id, appId := appId, folderId := folderId, addedAt := 0 }

/-- One user, two folders, one unfiled app. -/
def moveDB : DB :=
  { folders := [sampleFolder "F" "u" "Work" 0, sampleFolder "G" "u" "Play" 1]
    apps := [sampleApp "a1" "u"]
    appFolders := [] }

/-- A folder owned by `v`, one app of `u` and one app of `v`. -/
def crossDB : DB :=
  { folders := [sampleFolder "fv" "v" "Theirs" 0]
    apps := [sampleApp "a1" "u", sampleApp "b1" "v"]
    appFolders := [] }

/-- One folder of `u` holding the app `a1`. -/
def cascadeDB : DB :=
  { folders := [sampleFolder "F" "u" "Work" 0]
    apps := [sampleApp "a1" "u"]
    appFolders := [sampleAssoc "x1" "a1" "F"] }

/-- Two folders of `u`, nothing else. -/
def frameDB : DB :=
  { folders := [sampleFolder "F" "u" "Work" 0, sampleFolder "H" "u" "Other" 1]
    apps := [], appFolders := [] }

/-- A folder of `u` whose only association points at an app owned by `w`. -/
def countDB : DB :=
  { folders := [sampleFolder "F" "u" "Work" 0]
    apps := [sampleApp "b1" "w"]
    appFolders := [sampleAssoc "x1" "b1" "F"] }

def emptyDB : DB := { folders := [], apps := [], appFolders := [] }

/-- Sixty `phase_generating` inputs at times 0..59. -/
def wGenInputs : List (String × Nat × String) :=
  (List.range 60).map (fun i => ("Generating phase", i, "s"))

/-- Two folder creations with distinct fresh ids. -/
def wCreateInputs : List (FolderData × String × Nat) :=
  [({ name := "Work", description := none, color := none, icon := none }, "f1", 1),
   ({ name := "Personal", description := none, color := none, icon := none }, "f2", 2)]

/-- A partial update that renames the folder and touches nothing else. -/
def wUpd : FolderUpdates :=
  { name := some "New", description := none, color := none, icon := none, order := none }

/-! ### Shared lemmas -/

theorem find?_append_of_forall_not {α : Type _} (p : α → Bool) (l1 l2 : List α)
    (h : ∀ x ∈ l1, ¬ p x) : (l1 ++ l2).find? p = l2.find? p := by
  rw [List.find?_append, List.find?_eq_none.mpr h, Option.none_or]

theorem filter_after_filter_not {α : Type _} (p : α → Bool) (l : List α) :
    (l.filter (fun x => !(p x))).filter p = [] := by
  rw [List.filter_filter]
  simp

theorem filter_not_idem {α : Type _} (p : α → Bool) (l : List α) :
    (l.filter (fun x => !(p x))).filter (fun x => !(p x)) = l.filter (fun x => !(p x)) := by
  rw [List.filter_filter]
  simp only [Bool.and_self]

theorem string_length_ne_zero {s : String} (h : s ≠ "") : s.length ≠ 0 := by
  intro h0
  apply h
  apply String.ext
  have : s.data.length = 0 := h0
  simpa using List.length_eq_zero.mp this

/-! ### The claims -/

/-- C6: a 51-character folder name is rejected with a validation error both by
the controller and by the dialog; a 50-character name whose trimmed form is
nonempty is accepted by both; a missing or all-whitespace name is rejected on
create; an empty name is rejected on update. -/
theorem folder_name_validation (s51 s50 sw : String)
    (h51 : s51.length = 51) (h50 : s50.length = 50)
    (h50t : jsTrim s50 ≠ "") (hw : jsTrim sw = "") :
    (∃ m, validateCreateName (some s51) = .badRequest m) ∧
    (dialogValidate s51).isSome = true ∧
    validateCreateName (some s50) = .ok (jsTrim s50) ∧
    dialogValidate s50 = none ∧
    validateCreateName none = .badRequest "Folder name is required" ∧
    (∃ m, validateCreateName (some sw) = .badRequest m) ∧
    validateUpdateName (some "") = some "Folder name cannot be empty" := by
  refine ⟨?_, ?_, ?_, ?_, rfl, ?_, by decide⟩
  · simp only [validateCreateName]
    by_cases hc : (s51 == "" || (jsTrim s51).length == 0) = true
    · rw [if_pos hc]
      exact ⟨_, rfl⟩
    · rw [if_neg hc, if_pos (by rw [h51]; omega)]
      exact ⟨_, rfl⟩
  · simp only [dialogValidate]
    by_cases hc : (jsTrim s51 == "") = true
    · rw [if_pos hc]
      rfl
    · rw [if_neg hc, if_pos (by rw [h51]; omega)]
      rfl
  · have hne : ¬ (s50 == "" || (jsTrim s50).length == 0) = true := by
      simp only [Bool.or_eq_true, beq_iff_eq]
      push_neg
      refine ⟨?_, ?_⟩
      · intro h
        rw [h] at h50
        simp at h50
      · simpa using string_length_ne_zero h50t
    simp only [validateCreateName]
    rw [if_neg hne, if_neg (by rw [h50]; omega)]
  · simp only [dialogValidate]
    rw [if_neg (by simpa using h50t), if_neg (by rw [h50]; omega)]
  · simp only [validateCreateName]
    rw [if_pos (by simp [hw])]
    exact ⟨_, rfl⟩

theorem folder_name_validation_witness :
    validateCreateName
        (some "aaaaaaaaaaaaaaaaaaaaaaaaaaaaaaaaaaaaaaaaaaaaaaaaaa") =
      .ok "aaaaaaaaaaaaaaaaaaaaaaaaaaaaaaaaaaaaaaaaaaaaaaaaaa" ∧
    (∃ m, validateCreateName
        (some "aaaaaaaaaaaaaaaaaaaaaaaaaaaaaaaaaaaaaaaaaaaaaaaaaaa") = .badRequest m) :=
  ⟨(folder_name_validation
      "aaaaaaaaaaaaaaaaaaaaaaaaaaaaaaaaaaaaaaaaaaaaaaaaaaa"
      "aaaaaaaaaaaaaaaaaaaaaaaaaaaaaaaaaaaaaaaaaaaaaaaaaa" " "
      (by decide) (by decide) (by decide) (by decide)).2.2.1,
   (folder_name_validation
      "aaaaaaaaaaaaaaaaaaaaaaaaaaaaaaaaaaaaaaaaaaaaaaaaaaa"
      "aaaaaaaaaaaaaaaaaaaaaaaaaaaaaaaaaaaaaaaaaaaaaaaaaa" " "
      (by decide) (by decide) (by decide) (by decide)).1⟩

/-- C7: moving an app the caller owns to the `null` folder succeeds and leaves
it with zero associations; a second such move also succeeds and leaves the
state untouched. -/
theorem moveApp_to_null_idempotent (db : DB) (A U nid1 nid2 : String) (t1 t2 : Nat)
    (a : App) (hfind : db.apps.find? (fun x => x.id == A) = some a)
    (hown : a.userId = U) :
    (moveAppToFolder db A none U nid1 t1).1 = true ∧
    ((moveAppToFolder db A none U nid1 t1).2.appFolders.filter
      (fun af => af.appId == A)) = [] ∧
    moveAppToFolder (moveAppToFolder db A none U nid1 t1).2 A none U nid2 t2 =
      (true, (moveAppToFolder db A none U nid1 t1).2) := by
  have hbne : (a.userId != U) = false := by simp [hown]
  simp only [moveAppToFolder, hfind, hbne, Bool.false_eq_true, if_false]
  refine ⟨trivial, filter_after_filter_not _ _, ?_⟩
  rw [filter_not_idem]

theorem moveApp_to_null_idempotent_witness :
    (moveAppToFolder moveDB "a1" none "u" "n1" 3).1 = true ∧
    ((moveAppToFolder moveDB "a1" none "u" "n1" 3).2.appFolders.filter
      (fun af => af.appId == "a1")) = [] ∧
    moveAppToFolder (moveAppToFolder moveDB "a1" none "u" "n1" 3).2 "a1" none "u" "n2" 4 =
      (true, (moveAppToFolder moveDB "a1" none "u" "n1" 3).2) :=
  moveApp_to_null_idempotent moveDB "a1" "u" "n1" "n2" 3 4 (sampleApp "a1" "u")
    (by decide) (by decide)

/-- C1: moving an app the caller owns to folder F and then to folder G leaves
exactly one association row for the app, and it points at G. -/
theorem moveApp_twice_single_association (db : DB) (A F G U nid1 nid2 : String)
    (t1 t2 : Nat) (a : App)
    (hfind : db.apps.find? (fun x => x.id == A) = some a)
    (hown : a.userId = U)
    (fF : Folder) (hF : db.folders.find? (fun f => f.id == F && f.userId == U) = some fF)
    (fG : Folder) (hG : db.folders.find? (fun f => f.id == G && f.userId == U) = some fG) :
    (moveAppToFolder db A (some F) U nid1 t1).1 = true ∧
    (moveAppToFolder (moveAppToFolder db A (some F) U nid1 t1).2
        A (some G) U nid2 t2).1 = true ∧
    ((moveAppToFolder (moveAppToFolder db A (some F) U nid1 t1).2
        A (some G) U nid2 t2).2.appFolders.filter (fun af => af.appId == A)) =
      [{ id := nid2, appId := A, folderId := G, addedAt := t2 }] := by
  have hbne : (a.userId != U) = false := by simp [hown]
  simp only [moveAppToFolder, getFolderById, hfind, hbne, Bool.false_eq_true, if_false,
    hF, hG, Option.map_some']
  refine ⟨trivial, trivial, ?_⟩
  rw [List.filter_append, filter_after_filter_not]
  simp

theorem moveApp_twice_single_association_witness :
    ((moveAppToFolder (moveAppToFolder moveDB "a1" (some "F") "u" "n1" 1).2
        "a1" (some "G") "u" "n2" 2).2.appFolders.filter (fun af => af.appId == "a1")) =
      [{ id := "n2", appId := "a1", folderId := "G", addedAt := 2 }] :=
  (moveApp_twice_single_association moveDB "a1" "F" "G" "u" "n1" "n2" 1 2
    (sampleApp "a1" "u") (by decide) (by decide)
    (sampleFolder "F" "u" "Work" 0) (by decide)
    (sampleFolder "G" "u" "Play" 1) (by decide)).2.2

/-- C3: a folder owned by a different user behaves exactly like a missing one:
get returns none, update returns none, delete returns false, and a move
targeting it (or moving an app owned by that other user) returns false, in
every case leaving the database unchanged. -/
theorem cross_user_not_found (db : DB) (U V fid A B nid : String) (t now : Nat)
    (upd : FolderUpdates) (tgt : Option String)
    (f : Folder) (hf : f ∈ db.folders) (hfid : f.id = fid) (hfV : f.userId = V)
    (hVU : V ≠ U)
    (hNodup : (db.folders.map (fun g => g.id)).Nodup)
    (a : App) (ha : db.apps.find? (fun x => x.id == A) = some a) (haU : a.userId = U)
    (b : App) (hb : db.apps.find? (fun x => x.id == B) = some b) (hbV : b.userId = V) :
    getFolderById db fid U = none ∧
    updateFolder db fid U upd now = (none, db) ∧
    deleteFolder db fid U = (false, db) ∧
    moveAppToFolder db A (some fid) U nid t = (false, db) ∧
    moveAppToFolder db B tgt U nid t = (false, db) := by
  have hnone : db.folders.find? (fun g => g.id == fid && g.userId == U) = none := by
    rw [List.find?_eq_none]
    intro g hg hpred
    simp only [Bool.and_eq_true, beq_iff_eq] at hpred
    have hgf : g = f :=
      List.inj_on_of_nodup_map hNodup hg hf (by rw [hpred.1, hfid])
    exact hVU (by rw [← hfV, ← hgf, hpred.2])
  have haf : (a.userId != U) = false := by simp [haU]
  have hbf : (b.userId != U) = true := by simp [hbV, hVU]
  refine ⟨?_, ?_, ?_, ?_, ?_⟩
  · simp [getFolderById, hnone]
  · simp [updateFolder, getFolderById, hnone]
  · simp [deleteFolder, getFolderById, hnone]
  · simp [moveAppToFolder, ha, haf, getFolderById, hnone]
  · simp [moveAppToFolder, hb, hbf]

theorem cross_user_not_found_witness :
    getFolderById crossDB "fv" "u" = none ∧
    deleteFolder crossDB "fv" "u" = (false, crossDB) :=
  ⟨(cross_user_not_found crossDB "u" "v" "fv" "a1" "b1" "n" 0 0
      { name := none, description := none, color := none, icon := none, order := none }
      none (sampleFolder "fv" "v" "Theirs" 0) (by decide) (by decide) (by decide)
      (by decide) (by decide) (sampleApp "a1" "u") (by decide) (by decide)
      (sampleApp "b1" "v") (by decide) (by decide)).1,
   (cross_user_not_found crossDB "u" "v" "fv" "a1" "b1" "n" 0 0
      { name := none, description := none, color := none, icon := none, order := none }
      none (sampleFolder "fv" "v" "Theirs" 0) (by decide) (by decide) (by decide)
      (by decide) (by decide) (sampleApp "a1" "u") (by decide) (by decide)
      (sampleApp "b1" "v") (by decide) (by decide)).2.2.1⟩

/-- C4: deleting an owned folder succeeds, removes every association row of
the folder and then the folder row itself — no row with that id and owner
survives and a subsequent lookup of the folder returns none — and afterwards
the app-folder lookup of any app whose associations all pointed at the
deleted folder returns none. -/
theorem deleteFolder_cascades (db : DB) (fid U a : String)
    (f : Folder) (hf : db.folders.find? (fun g => g.id == fid && g.userId == U) = some f)
    (hassoc : ∀ af ∈ db.appFolders, af.appId = a → af.folderId = fid) :
    (deleteFolder db fid U).1 = true ∧
    ((deleteFolder db fid U).2.appFolders.filter (fun af => af.folderId == fid)) = [] ∧
    getAppFolder (deleteFolder db fid U).2 a = none ∧
    (∀ g ∈ (deleteFolder db fid U).2.folders, ¬(g.id = fid ∧ g.userId = U)) ∧
    getFolderById (deleteFolder db fid U).2 fid U = none := by
  have hrow : ∀ g ∈ db.folders.filter (fun g => !(g.id == fid && g.userId == U)),
      ¬(g.id = fid ∧ g.userId = U) := by
    intro g hg hgeq
    have hgp := (List.mem_filter.mp hg).2
    simp only [Bool.not_eq_eq_eq_not, Bool.not_true, Bool.and_eq_false_iff,
      beq_eq_false_iff_ne, ne_eq] at hgp
    rcases hgp with h | h
    · exact h hgeq.1
    · exact h hgeq.2
  simp only [deleteFolder, getFolderById, hf, Option.map_some']
  refine ⟨trivial, filter_after_filter_not _ _, ?_, hrow, ?_⟩
  · simp only [getAppFolder]
    rw [List.find?_eq_none.mpr, Option.map_none']
    intro af haf
    rw [List.mem_filter] at haf
    simp only [Bool.not_eq_eq_eq_not, Bool.not_true, beq_eq_false_iff_ne] at haf
    intro heq
    exact haf.2 (by rw [hassoc af haf.1 (by simpa using heq)])
  · rw [List.find?_eq_none.mpr, Option.map_none']
    intro g hg hgp
    simp only [Bool.and_eq_true, beq_iff_eq] at hgp
    exact hrow g hg hgp

theorem deleteFolder_cascades_witness :
    (deleteFolder cascadeDB "F" "u").1 = true ∧
    getAppFolder (deleteFolder cascadeDB "F" "u").2 "a1" = none ∧
    getFolderById (deleteFolder cascadeDB "F" "u").2 "F" "u" = none :=
  ⟨(deleteFolder_cascades cascadeDB "F" "u" "a1" (sampleFolder "F" "u" "Work" 0)
      (by decide) (by decide)).1,
   (deleteFolder_cascades cascadeDB "F" "u" "a1" (sampleFolder "F" "u" "Work" 0)
      (by decide) (by decide)).2.2.1,
   (deleteFolder_cascades cascadeDB "F" "u" "a1" (sampleFolder "F" "u" "Work" 0)
      (by decide) (by decide)).2.2.2.2⟩

theorem maxIntOr_append_last (l : List Int) (x : Int) (hx : maxIntOr l ≤ x) :
    maxIntOr (l ++ [x]) = x := by
  cases l with
  | nil => simp [maxIntOr]
  | cons o rest =>
    simp only [maxIntOr, List.cons_append, List.foldl_append, List.foldl_cons,
      List.foldl_nil]
    exact max_eq_right (by simpa [maxIntOr] using hx)

theorem createFolder_fst (db : DB) (u : String) (d : FolderData) (i : String) (t : Nat)
    (hfresh : ∀ f ∈ db.folders, f.id ≠ i) :
    (createFolder db u d i t).1 = some
      { id := i, userId := u, name := d.name, description := d.description
        color := d.color, icon := d.icon, order := maxOrder db u + 1
        createdAt := t, updatedAt := t } := by
  unfold createFolder
  simp only
  rw [find?_append_of_forall_not _ _ _ (fun x hx => by simpa using hfresh x hx)]
  simp

theorem maxOrder_append_one (db : DB) (u : String) (nf : Folder)
    (hu : nf.userId = u) (hord : maxOrder db u ≤ nf.order) :
    maxOrder { db with folders := db.folders ++ [nf] } u = nf.order := by
  unfold maxOrder at *
  simp only [List.filter_append, List.map_append]
  have hsing : (List.filter (fun f => f.userId == u) [nf]).map (fun f => f.order) =
      [nf.order] := by simp [hu]
  rw [hsing]
  exact maxIntOr_append_last _ _ hord

theorem maxOrder_createFolder_snd (db : DB) (u : String) (d : FolderData)
    (i : String) (t : Nat) :
    maxOrder (createFolder db u d i t).2 u = maxOrder db u + 1 :=
  maxOrder_append_one db u
    { id := i, userId := u, name := d.name, description := d.description
      color := d.color, icon := d.icon, order := maxOrder db u + 1
      createdAt := t, updatedAt := t } rfl
    (by show maxOrder db u ≤ maxOrder db u + 1; omega)

theorem createRun_orders (u : String) (inputs : List (FolderData × String × Nat)) :
    ∀ (db : DB),
    (∀ x ∈ inputs, ∀ f ∈ db.folders, f.id ≠ x.2.1) →
    (inputs.map (fun x => x.2.1)).Nodup →
    (createRun db u inputs).1.map (Option.map (fun f => f.order)) =
      (List.range inputs.length).map (fun (n : Nat) => some (maxOrder db u + 1 + (n : Int))) := by
  induction inputs with
  | nil => intro db _ _; rfl
  | cons x rest ih =>
    obtain ⟨d, i, t⟩ := x
    intro db hfresh hnodup
    simp only [createRun, List.map_cons]
    rw [createFolder_fst db u d i t (fun f hf => hfresh (d, i, t) (by simp) f hf)]
    have hfresh2 : ∀ y ∈ rest, ∀ f ∈ (createFolder db u d i t).2.folders, f.id ≠ y.2.1 := by
      intro y hy f hf
      simp only [createFolder, List.mem_append, List.mem_singleton] at hf
      rcases hf with hf | hf
      · exact hfresh y (List.mem_cons_of_mem _ hy) f hf
      · rw [hf]
        simp only [List.map_cons, List.nodup_cons, List.mem_map] at hnodup
        intro hiy
        exact hnodup.1 ⟨y, hy, hiy.symm⟩
    have hnodup2 : (rest.map (fun y => y.2.1)).Nodup :=
      (List.nodup_cons.mp hnodup).2
    rw [ih (createFolder db u d i t).2 hfresh2 hnodup2, maxOrder_createFolder_snd]
    simp only [List.length_cons, List.range_succ_eq_map, List.map_cons, List.map_map]
    congr 1
    · simp
    · apply List.map_congr_left
      intro n _
      simp only [Function.comp_apply, Nat.succ_eq_add_one, Option.some.injEq]
      push_cast
      ring

/-- C2: createFolder assigns the new folder order 1 + the user's current
maximum order, with −1 standing in when the user has no folders (so the first
folder gets 0); consequently a sequence of creations starting from no folders
is assigned orders 0, 1, 2, …. -/
theorem createFolder_order_sequence (db : DB) (u : String)
    (d : FolderData) (i0 : String) (t0 : Nat)
    (inputs : List (FolderData × String × Nat))
    (hfresh0 : ∀ f ∈ db.folders, f.id ≠ i0)
    (hempty : db.folders.filter (fun f => f.userId == u) = [])
    (hfresh : ∀ x ∈ inputs, ∀ f ∈ db.folders, f.id ≠ x.2.1)
    (hnodup : (inputs.map (fun x => x.2.1)).Nodup) :
    (∃ r, (createFolder db u d i0 t0).1 = some r ∧ r.order = maxOrder db u + 1) ∧
    maxOrder db u = -1 ∧
    (createRun db u inputs).1.map (Option.map (fun f => f.order)) =
      (List.range inputs.length).map (fun (n : Nat) => some ((0 : Int) + (n : Int))) := by
  have hm : maxOrder db u = -1 := by
    unfold maxOrder
    rw [hempty]
    rfl
  refine ⟨⟨_, createFolder_fst db u d i0 t0 hfresh0, rfl⟩, hm, ?_⟩
  rw [createRun_orders u inputs db hfresh hnodup, hm]
  apply List.map_congr_left
  intro n _
  simp only [Option.some.injEq]
  omega

theorem createFolder_order_sequence_witness :
    (createRun emptyDB "u" wCreateInputs).1.map (Option.map (fun f => f.order)) =
      (List.range wCreateInputs.length).map (fun (n : Nat) => some ((0 : Int) + (n : Int))) :=
  (createFolder_order_sequence emptyDB "u"
    { name := "W", description := none, color := none, icon := none } "f0" 0
    wCreateInputs (by decide) (by decide) (by decide) (by decide)).2.2

/-- C5: getUserFolders returns exactly the user's folders, each enriched with
its computed app count, sorted by order descending with name ascending as the
tiebreak. -/
theorem getUserFolders_sorted_complete (db : DB) (u : String) :
    (getUserFolders db u).Sorted folderListLE ∧
    List.Perm (getUserFolders db u)
      ((db.folders.filter (fun f => f.userId == u)).map (enrich db)) ∧
    ∀ x ∈ getUserFolders db u,
      x.appCount = (db.appFolders.filter (fun af => af.folderId == x.id)).length := by
  refine ⟨List.sorted_insertionSort folderListLE _,
    List.perm_insertionSort folderListLE _, ?_⟩
  intro x hx
  have hx2 : x ∈ (db.folders.filter (fun f => f.userId == u)).map (enrich db) :=
    (List.perm_insertionSort folderListLE _).mem_iff.mp hx
  obtain ⟨f, _, rfl⟩ := List.mem_map.mp hx2
  rfl

theorem filter_map_eq_filter {α : Type _} (q : α → Bool) (h : α → α)
    (hq : ∀ g, q (h g) = q g) (hfix : ∀ g, q g = true → h g = g) :
    ∀ l : List α, (l.map h).filter q = l.filter q := by
  intro l
  induction l with
  | nil => rfl
  | cons a l ih =>
    simp only [List.map_cons, List.filter_cons, hq]
    cases hqa : q a with
    | true => simp only [if_pos rfl, hfix a hqa, ih]
    | false => simpa using ih

/-- C8: a successful update changes only the provided fields of the target
row, always refreshes the update timestamp (also when no field is provided),
and leaves every other folder row, the apps table and the associations table
untouched. -/
theorem updateFolder_frame (db : DB) (fid U : String) (upd : FolderUpdates) (now : Nat)
    (f0 : Folder)
    (h0 : db.folders.find? (fun g => g.id == fid && g.userId == U) = some f0)
    (hNodup : (db.folders.map (fun g => g.id)).Nodup) :
    (∃ r, (updateFolder db fid U upd now).1 = some r ∧
      r.id = f0.id ∧ r.userId = f0.userId ∧ r.createdAt = f0.createdAt ∧
      r.updatedAt = now ∧
      (upd.name = none → r.name = f0.name) ∧
      (∀ v, upd.name = some v → r.name = v) ∧
      (upd.description = none → r.description = f0.description) ∧
      (∀ v, upd.description = some v → r.description = some v) ∧
      (upd.color = none → r.color = f0.color) ∧
      (∀ v, upd.color = some v → r.color = some v) ∧
      (upd.icon = none → r.icon = f0.icon) ∧
      (∀ v, upd.icon = some v → r.icon = some v) ∧
      (upd.order = none → r.order = f0.order) ∧
      (∀ v, upd.order = some v → r.order = v)) ∧
    (updateFolder db fid U upd now).2.apps = db.apps ∧
    (updateFolder db fid U upd now).2.appFolders = db.appFolders ∧
    ((updateFolder db fid U upd now).2.folders.filter (fun g => !(g.id == fid)) =
      db.folders.filter (fun g => !(g.id == fid))) := by
  have hmem : f0 ∈ db.folders := List.mem_of_find?_eq_some h0
  have hpred := List.find?_some h0
  simp only [Bool.and_eq_true, beq_iff_eq] at hpred
  have hid : ∀ g : Folder,
      (if g.id == fid && g.userId == U then applySet g upd now else g).id = g.id := by
    intro g
    by_cases hc : (g.id == fid && g.userId == U) = true
    · rw [if_pos hc]; rfl
    · rw [if_neg hc]
  simp only [updateFolder, getFolderById, h0, Option.map_some']
  refine ⟨?_, trivial, trivial, ?_⟩
  · have hfind : db.folders.find? (fun g => g.id == fid) = some f0 := by
      have hsome : (db.folders.find? (fun g => g.id == fid)).isSome := by
        rw [List.find?_isSome]
        exact ⟨f0, hmem, by simp [hpred.1]⟩
      obtain ⟨g, hg⟩ := Option.isSome_iff_exists.mp hsome
      have hgmem : g ∈ db.folders := List.mem_of_find?_eq_some hg
      have hgpred := List.find?_some hg
      rw [hg]
      have hgf : g = f0 := List.inj_on_of_nodup_map hNodup hgmem hmem
        (by rw [beq_iff_eq.mp hgpred, hpred.1])
      rw [hgf]
    rw [List.find?_map]
    have hcomp : ((fun g : Folder => g.id == fid) ∘
        (fun g => if g.id == fid && g.userId == U then applySet g upd now else g)) =
        (fun g : Folder => g.id == fid) := by
      funext g
      simp only [Function.comp_apply, hid]
    rw [hcomp, hfind, Option.map_some']
    have hcond : (f0.id == fid && f0.userId == U) = true := by
      simp [hpred.1, hpred.2]
    rw [if_pos hcond]
    refine ⟨applySet f0 upd now, rfl, rfl, rfl, rfl, rfl, ?_, ?_, ?_, ?_, ?_, ?_, ?_, ?_, ?_, ?_⟩
    · intro h; simp [applySet, h]
    · intro v h; simp [applySet, h]
    · intro h; simp [applySet, h]
    · intro v h; simp [applySet, h]
    · intro h; simp [applySet, h]
    · intro v h; simp [applySet, h]
    · intro h; simp [applySet, h]
    · intro v h; simp [applySet, h]
    · intro h; simp [applySet, h]
    · intro v h; simp [applySet, h]
  · apply filter_map_eq_filter
    · intro g
      rw [hid]
    · intro g hg
      have hgid : (g.id == fid) = false := by simpa using hg
      rw [if_neg]
      simp [hgid]

theorem lastN_length_le {α : Type _} (n : Nat) (l : List α) : (lastN n l).length ≤ n := by
  simp only [lastN, List.length_drop]
  omega

theorem lastN_of_length_le {α : Type _} (n : Nat) (l : List α) (h : l.length ≤ n) :
    lastN n l = l := by
  simp only [lastN, Nat.sub_eq_zero_of_le h, List.drop_zero]

theorem lastN_append_lastN {α : Type _} (n : Nat) (xs ys : List α) :
    lastN n (lastN n xs ++ ys) = lastN n (xs ++ ys) := by
  simp only [lastN, List.drop_append_eq_append_drop, List.drop_drop,
    List.length_append, List.length_drop]
  congr 1
  · congr 1
    omega
  · congr 1
    omega

theorem addActivity_eq (s : TrackerState) (ty msg st : String) (now : Nat) (suf : String) :
    addActivity s ty msg st now suf =
      { activities := lastN MAX_ACTIVITIES (s.activities ++
          [{ id := toString now ++ "-" ++ suf, timestamp := now, type := ty
             message := msg, status := st }])
        lastMessageTimestamp := now } := by
  unfold addActivity
  simp only
  congr 1
  split
  · rfl
  · rw [lastN_of_length_le]
    omega

theorem addActivity_length_le (s : TrackerState) (ty msg st : String) (now : Nat)
    (suf : String) :
    (addActivity s ty msg st now suf).activities.length ≤ MAX_ACTIVITIES := by
  rw [addActivity_eq]
  exact lastN_length_le _ _

theorem track_phase_generating (s : TrackerState) (text : String) (now : Nat)
    (suf : String) :
    trackWebSocketMessage s (mkPhaseGenerating text) now suf =
      { activities := lastN MAX_ACTIVITIES (s.activities ++ [genActivity (text, now, suf)])
        lastMessageTimestamp := now } := by
  have hd : dispatchMessage (mkPhaseGenerating text) =
      some ("phase_generating", text, "active") := rfl
  unfold trackWebSocketMessage
  rw [hd]
  show addActivity { activities := s.activities, lastMessageTimestamp := now }
      "phase_generating" text "active" now suf = _
  rw [addActivity_eq]
  rfl

theorem feed_phase_generating_activities (ps : List (String × Nat × String)) :
    ∀ s : TrackerState, s.activities.length ≤ MAX_ACTIVITIES →
    (feedMessages s (ps.map (fun p => (mkPhaseGenerating p.1, p.2.1, p.2.2)))).activities =
      lastN MAX_ACTIVITIES (s.activities ++ ps.map genActivity) := by
  induction ps with
  | nil =>
    intro s hs
    simp only [List.map_nil, feedMessages, List.append_nil]
    rw [lastN_of_length_le _ _ hs]
  | cons p ps ih =>
    intro s hs
    simp only [List.map_cons, feedMessages]
    rw [track_phase_generating]
    rw [ih _ (lastN_length_le _ _)]
    simp only
    rw [lastN_append_lastN, List.append_assoc, List.singleton_append]

theorem feed_phase_generating_timestamp (ps : List (String × Nat × String)) :
    ∀ s : TrackerState,
    (feedMessages s (ps.map (fun p =>
        (mkPhaseGenerating p.1, p.2.1, p.2.2)))).lastMessageTimestamp =
      (match ps.getLast? with
       | some q => q.2.1
       | none => s.lastMessageTimestamp) := by
  induction ps with
  | nil => intro s; rfl
  | cons p ps ih =>
    intro s
    simp only [List.map_cons, feedMessages]
    rw [track_phase_generating, ih]
    cases ps with
    | nil => rfl
    | cons q qs =>
      rw [List.getLast?_cons_cons]
      obtain ⟨z, hz⟩ : ∃ z, (q :: qs).getLast? = some z := by
        cases hqs : (q :: qs).getLast? with
        | some z => exact ⟨z, rfl⟩
        | none => simp at hqs
      rw [hz]

/-- C9: sixty sequential phase_generating messages leave exactly 50 activity
entries — the newest 50 in arrival order, the oldest 10 evicted — the
last-activity timestamp equals the 60th message's time, and no message ever
grows the activity list beyond 50 entries. -/
theorem status_tracker_bounded (ps : List (String × Nat × String))
    (last : String × Nat × String)
    (hlen : ps.length = 60) (hlast : ps.getLast? = some last) :
    (feedMessages initialTracker (ps.map (fun p =>
        (mkPhaseGenerating p.1, p.2.1, p.2.2)))).activities =
      (ps.drop 10).map genActivity ∧
    (feedMessages initialTracker (ps.map (fun p =>
        (mkPhaseGenerating p.1, p.2.1, p.2.2)))).activities.length = 50 ∧
    (feedMessages initialTracker (ps.map (fun p =>
        (mkPhaseGenerating p.1, p.2.1, p.2.2)))).lastMessageTimestamp = last.2.1 ∧
    (∀ (s : TrackerState) (m : WebSocketMessage) (t : Nat) (suf : String),
      s.activities.length ≤ 50 →
      (trackWebSocketMessage s m t suf).activities.length ≤ 50) := by
  have hacts : (feedMessages initialTracker (ps.map (fun p =>
      (mkPhaseGenerating p.1, p.2.1, p.2.2)))).activities =
      (ps.drop 10).map genActivity := by
    rw [feed_phase_generating_activities ps initialTracker (by simp [initialTracker])]
    show lastN MAX_ACTIVITIES ([] ++ ps.map genActivity) = _
    rw [List.nil_append, lastN, List.length_map, hlen, List.map_drop]
    rfl
  refine ⟨hacts, ?_, ?_, ?_⟩
  · rw [hacts, List.length_map, List.length_drop, hlen]
  · rw [feed_phase_generating_timestamp, hlast]
  · intro s m t suf hs
    unfold trackWebSocketMessage
    cases h : dispatchMessage m with
    | none => simp only [h]; exact hs
    | some x =>
      obtain ⟨ty, msg, st⟩ := x
      simp only [h]
      exact addActivity_length_le _ _ _ _ _ _

set_option maxRecDepth 100000 in
theorem status_tracker_bounded_witness :
    (feedMessages initialTracker (wGenInputs.map (fun p =>
        (mkPhaseGenerating p.1, p.2.1, p.2.2)))).activities.length = 50 :=
  (status_tracker_bounded wGenInputs ("Generating phase", 59, "s")
    (by decide) (by decide)).2.1

theorem updateFolder_frame_witness :
    (updateFolder frameDB "F" "u" wUpd 9).2.appFolders = frameDB.appFolders ∧
    ((updateFolder frameDB "F" "u" wUpd 9).2.folders.filter (fun g => !(g.id == "F")) =
      frameDB.folders.filter (fun g => !(g.id == "F"))) :=
  ⟨(updateFolder_frame frameDB "F" "u" wUpd 9 (sampleFolder "F" "u" "Work" 0)
      (by decide) (by decide)).2.2.1,
   (updateFolder_frame frameDB "F" "u" wUpd 9 (sampleFolder "F" "u" "Work" 0)
      (by decide) (by decide)).2.2.2⟩

theorem length_flatMap_map_const {α β γ : Type _} (l : List α) (g : α → List β)
    (h : α → γ) :
    (l.flatMap (fun a => (g a).map (fun _ => h a))).length = (l.flatMap g).length := by
  induction l with
  | nil => rfl
  | cons a l ih =>
    simp only [List.flatMap_cons, List.length_append, List.length_map, ih]

theorem join_filter_nodup (afs : List AppFolder) (hafs : afs.Nodup) (fid u : String) :
    ∀ (as : List App), (as.map (fun a => a.id)).Nodup →
    (as.flatMap (fun a => afs.filter (fun af =>
      af.appId == a.id && af.folderId == fid && a.userId == u))).Nodup := by
  intro as
  induction as with
  | nil => intro _; exact List.nodup_nil
  | cons a as ih =>
    intro hn
    simp only [List.map_cons, List.nodup_cons, List.mem_map] at hn
    simp only [List.flatMap_cons]
    apply List.Nodup.append
    · exact List.Nodup.filter _ hafs
    · exact ih hn.2
    · intro x hx1 hx2
      have h1 : (x.appId == a.id) = true := by
        have := (List.mem_filter.mp hx1).2
        simp only [Bool.and_eq_true] at this
        exact this.1.1
      obtain ⟨b, hb, hxb⟩ := List.mem_flatMap.mp hx2
      have h2 : (x.appId == b.id) = true := by
        have := (List.mem_filter.mp hxb).2
        simp only [Bool.and_eq_true] at this
        exact this.1.1
      exact hn.1 ⟨b, hb, by rw [← beq_iff_eq.mp h2, beq_iff_eq.mp h1]⟩

/-- C10: the appCount attached to a folder record counts every association
row of the folder regardless of the associated app's owner, while
getAppsInFolder additionally filters to apps owned by the caller; so when an
association points at an app owned by another user, appCount strictly exceeds
the number of apps getAppsInFolder returns. -/
theorem appCount_exceeds_folder_listing (db : DB) (fid u w : String)
    (f0 : Folder)
    (hf : db.folders.find? (fun g => g.id == fid && g.userId == u) = some f0)
    (af0 : AppFolder) (haf0 : af0 ∈ db.appFolders) (haf0fid : af0.folderId = fid)
    (hforeign : ∀ a ∈ db.apps, a.id = af0.appId → a.userId = w)
    (hwu : w ≠ u)
    (hNodupApps : (db.apps.map (fun a => a.id)).Nodup)
    (hNodupAF : db.appFolders.Nodup) :
    (∀ r, getFolderById db fid u = some r →
      r.appCount = (db.appFolders.filter (fun af => af.folderId == fid)).length) ∧
    (getAppsInFolder db fid u).length <
      (db.appFolders.filter (fun af => af.folderId == fid)).length := by
  have hpred := List.find?_some hf
  simp only [Bool.and_eq_true, beq_iff_eq] at hpred
  constructor
  · intro r hr
    simp only [getFolderById, hf, Option.map_some', Option.some.injEq] at hr
    rw [← hr]
    simp only [enrich, appCountOf, hpred.1]
  · simp only [getAppsInFolder, getFolderById, hf, Option.map_some']
    rw [List.length_insertionSort]
    rw [length_flatMap_map_const db.apps
      (fun a => db.appFolders.filter (fun af =>
        af.appId == a.id && af.folderId == fid && a.userId == u)) toListing]
    set J := db.apps.flatMap (fun a => db.appFolders.filter (fun af =>
      af.appId == a.id && af.folderId == fid && a.userId == u)) with hJ
    have hJsub : J ⊆ (db.appFolders.filter (fun af => af.folderId == fid)).filter
        (fun af => !(af.appId == af0.appId)) := by
      intro x hx
      obtain ⟨a, ha, hxa⟩ := List.mem_flatMap.mp hx
      obtain ⟨hmem, hx2⟩ := List.mem_filter.mp hxa
      simp only [Bool.and_eq_true, beq_iff_eq] at hx2
      rw [List.mem_filter, List.mem_filter]
      refine ⟨⟨hmem, by simp [hx2.1.2]⟩, ?_⟩
      simp only [Bool.not_eq_eq_eq_not, Bool.not_true, beq_eq_false_iff_ne, ne_eq]
      intro hxid
      have haw : a.userId = w := hforeign a ha (by rw [← hx2.1.1, hxid])
      exact hwu (by rw [← haw, hx2.2])
    have hJnodup : J.Nodup := join_filter_nodup db.appFolders hNodupAF fid u db.apps hNodupApps
    have hle : J.length ≤ ((db.appFolders.filter (fun af => af.folderId == fid)).filter
        (fun af => !(af.appId == af0.appId))).length :=
      (hJnodup.subperm hJsub).length_le
    have hlt : ((db.appFolders.filter (fun af => af.folderId == fid)).filter
        (fun af => !(af.appId == af0.appId))).length <
        (db.appFolders.filter (fun af => af.folderId == fid)).length := by
      rw [List.length_filter_lt_length_iff_exists]
      exact ⟨af0, List.mem_filter.mpr ⟨haf0, by simp [haf0fid]⟩, by simp⟩
    omega

theorem appCount_exceeds_folder_listing_witness :
    (getAppsInFolder countDB "F" "u").length <
      (countDB.appFolders.filter (fun af => af.folderId == "F")).length :=
  (appCount_exceeds_folder_listing countDB "F" "u" "w"
    (sampleFolder "F" "u" "Work" 0) (by decide)
    (sampleAssoc "x1" "b1" "F") (by decide) (by decide)
    (by decide) (by decide) (by decide) (by decide)).2

end Vibe
